import Mathlib

/-!
# AutoHire — formal model and verification

A shallow embedding, in Lean 4, of the AutoHire job-portal application
(`main.py`): a Flask app with two relational tables (`users`,
`applications`), password-hash authentication, a remote job-listing
fetcher filtered by keyword, and seven request handlers.

Strings are modelled as `List Char` (`Str`).  Python's truthiness of
strings (`not role`) is `Option Str` plus the empty-string test; machine
integers are `Nat` (the counters only ever start at 0 and are
incremented).  The remote HTTP call is modelled by passing the decoded
JSON job list as an argument, together with a `Bool` recording whether
the outbound call was issued.  JSON field access `job["title"]`, which
raises `KeyError` when absent, is an `Option`-returning lookup
propagated through the fetcher.
-/

/-- Python strings, modelled as lists of characters. -/
abbrev Str := List Char

/-- Convenience: build a `Str` from a Lean string literal. -/
def strLit (s : String) : Str := s.data

/-- ASCII lower-casing of one character, as Python's `str.lower` acts on
the ASCII fragment: `A`–`Z` (codepoints 65–90) map 32 up, all else fixed. -/
def pyToLower (c : Char) : Char :=
  if 65 ≤ c.toNat ∧ c.toNat ≤ 90 then Char.ofNat (c.toNat + 32) else c

/-- Python `s.lower()`. -/
def pyLower (s : Str) : Str := s.map pyToLower

/-- Python `str.split()` whitespace: space, tab, newline, vertical tab,
form feed, carriage return. -/
def isPySpace (c : Char) : Bool :=
  c.toNat = 32 ∨ c.toNat = 9 ∨ c.toNat = 10 ∨ c.toNat = 11 ∨
    c.toNat = 12 ∨ c.toNat = 13

/-- Split at every whitespace character, keeping empty chunks
(the helper underlying `pySplitWs`). -/
def splitWsAll : Str → List Str
  | [] => [[]]
  | c :: cs =>
    if isPySpace c then [] :: splitWsAll cs
    else
      match splitWsAll cs with
      | [] => [[c]]
      | w :: ws => (c :: w) :: ws

/-- Python `s.split()` with no argument: split on whitespace runs,
dropping empty tokens. -/
def pySplitWs (s : Str) : List Str :=
  (splitWsAll s).filter (fun w => !w.isEmpty)

/-- Python substring test `needle in hay`: `needle` occurs contiguously
in `hay` (the empty needle occurs in everything). -/
def strContains (needle : Str) : Str → Bool
  | [] => needle.isEmpty
  | c :: t => needle.isPrefixOf (c :: t) || strContains needle t

/-- A job object of the decoded JSON response of the remote API.  The
`"title"` key may be absent (`hasTitle = false`); other fields are not
inspected by the code and are left out of the model. -/
structure Job where
  hasTitle : Bool
  title : Str
deriving Repr, DecidableEq

/-- Field access `job["title"]` as a lookup that reports a missing key. -/
def Job.titleGet (j : Job) : Option Str :=
  if j.hasTitle then some j.title else none

/-- One job's pass through the comprehension filter
`any(k in job["title"].lower() for k in keywords)`:
`none` models the `KeyError` raised when the title is accessed on a
job without one.  With no keywords the generator never evaluates
`job["title"]`, so no error can arise. -/
def jobMatches (keywords : List Str) (j : Job) : Option Bool :=
  if keywords.isEmpty then some false
  else
    match j.titleGet with
    | none => none
    | some t => some (keywords.any (fun k => strContains k (pyLower t)))

/-- The list comprehension of `fetch_remotive_jobs`: filter the jobs,
propagating a `KeyError` (`none`) from any job it inspects. -/
def filterJobs (keywords : List Str) : List Job → Option (List Job)
  | [] => some []
  | j :: rest =>
    match jobMatches keywords j with
    | none => none
    | some b =>
      match filterJobs keywords rest with
      | none => none
      | some r => some (if b then j :: r else r)

/-- Listing fetcher `fetch_remotive_jobs(role)` (main.py:76–89).  `role` is the nullable
`users.role` column; `data` is the decoded `"jobs"` list of the remote
response.  The first component records whether the outbound HTTP GET was
issued; the second is `none` when the comprehension raises `KeyError`.

```python
def fetch_remotive_jobs(role):
    if not role:
        return []
    data = requests.get(...).json().get("jobs", [])
    keywords = role.lower().split()
    return [job for job in data
            if any(k in job["title"].lower() for k in keywords)][:30]
``` -/
def fetch_remotive_jobs (role : Option Str) (data : List Job) :
    Bool × Option (List Job) :=
  match role with
  | none => (false, some [])
  | some r =>
    if r.isEmpty then (false, some [])
    else
      let keywords := pySplitWs (pyLower r)
      (true, (filterJobs keywords data).map (fun l => l.take 30))

/-! ## Splitting and joining on the fixed `"||"` delimiter -/

/-- Python `"||".join(xs)` (main.py:170–172). -/
def pyJoinDelim : List Str → Str
  | [] => []
  | [x] => x
  | x :: y :: ys => x ++ '|' :: '|' :: pyJoinDelim (y :: ys)

/-- Python `s.split("||")`: cut at each leftmost non-overlapping
occurrence of the two-character delimiter. -/
def pySplitDelim : Str → List Str
  | [] => [[]]
  | [c] => [[c]]
  | c :: c2 :: rest =>
    if c = '|' ∧ c2 = '|' then [] :: pySplitDelim rest
    else
      match pySplitDelim (c2 :: rest) with
      | [] => [[c]]
      | w :: ws => (c :: w) :: ws

/-! ## Password hashing (model of the werkzeug collaborators) -/

/-- Model of werkzeug's `generate_password_hash`: a salted one-way hash.
The salt, chosen internally by the library at each call, is an explicit
parameter of the model.  The model keeps exactly the properties the
application relies on: the output verifies against the hashed password
(`check_password_hash`) and is never equal to the plaintext. -/
def generate_password_hash (salt pw : Str) : Str := salt ++ '$' :: pw

/-- Model of werkzeug's `check_password_hash`: does `stored` verify as a
salted hash of `pw`? -/
def check_password_hash (stored pw : Str) : Bool :=
  (List.range (stored.length + 1)).any (fun n => stored.drop n == '$' :: pw)

/-! ## Data model: the `users` and `applications` tables -/

/-- One row of the `users` table (main.py:33–60).  `name` is declared
non-nullable, but the profile-edit handler can write an absent form field
into it, so the model keeps it optional; `email` and `password` are only
ever written from required form fields.  The four counters default to 0. -/
structure User where
  id : Nat
  name : Option Str
  email : Str
  password : Str
  role : Option Str
  address : Option Str
  linkdin : Option Str
  about : Option Str
  title : Option Str
  company : Option Str
  desc : Option Str
  resume : Option Str
  image : Str
  apply : Nat
  shortlist : Nat
  interview : Nat
  reject : Nat
deriving Repr, DecidableEq

/-- One row of the `applications` table (main.py:63–70). -/
structure Application where
  id : Nat
  job_title : Option Str
  company : Option Str
  job_url : Option Str
  user_id : Nat
deriving Repr, DecidableEq

/-- The persistence store: both tables plus the autoincrement counters
for the two primary keys. -/
structure DB where
  users : List User
  apps : List Application
  nextUserId : Nat
  nextAppId : Nat
deriving Repr, DecidableEq

/-- SELECT of `User.query.filter_by(email=email).first()`. -/
def getUserByEmail (db : DB) (email : Str) : Option User :=
  db.users.find? (fun u => u.email == email)

/-- SELECT of `User.query.get_or_404(id)` (`none` becomes the 404). -/
def getUser (db : DB) (id : Nat) : Option User :=
  db.users.find? (fun u => u.id == id)

/-- Commit of a mutated ORM `User` object loaded by primary key `id`. -/
def setUser (db : DB) (id : Nat) (u : User) : DB :=
  { db with users := db.users.map (fun v => if v.id == id then u else v) }

/-- Default of the `users.image` column (main.py:52–55). -/
def defaultImagePath : Str := strLit "static/uploads/profile_pics/default.jpg"

/-- The funnel percentages rendered by the applications view. -/
structure Funnel where
  applied : Nat
  shortlisted : Nat
  interview : Nat
deriving Repr, DecidableEq

/-- Responses the handlers can produce: rendered pages (with the data
handed to the template) or redirects. -/
inductive HResp where
  | signupError (msg : Str)
  | redirectLogin
  | renderLogin
  | redirectDashboard (id : Nat)
  | renderDashboard (id : Nat) (jobs : List Job)
  | serverError
  | notFound
  | renderProfile (id : Nat)
  | renderEditProfile (id : Nat)
  | redirectProfile (id : Nat)
  | redirectApplications (id : Nat)
  | renderApplications (id : Nat) (apps : List Application) (funnel : Funnel)
deriving Repr, DecidableEq

/-! ## Request handlers -/

/-- The `User(...)` row the signup handler constructs (main.py:112–116),
with the column defaults of the model filled in. -/
def newUser (db : DB) (salt name email password : Str) : User :=
  { id := db.nextUserId
    name := some name
    email := email
    password := generate_password_hash salt password
    role := none, address := none, linkdin := none, about := none
    title := none, company := none, desc := none, resume := none
    image := defaultImagePath
    apply := 0, shortlist := 0, interview := 0, reject := 0 }

/-- Signup handler (main.py:100–128).  The duplicate pre-check is a
SELECT against the store as it stands when the handler starts
(`dbRead`); the INSERT + COMMIT run against the store as it stands at
write time (`dbWrite`) and fail with `IntegrityError` — rolled back, so
the store is returned unchanged — when the unique-email constraint is
violated there.  In a sequential run `dbRead = dbWrite`; letting them
differ models a concurrent signup committing in between.  `salt` is the
salt werkzeug picks for `generate_password_hash`. -/
def signup (dbRead dbWrite : DB) (salt name email password : Str) :
    DB × HResp :=
  if (getUserByEmail dbRead email).isSome then
    (dbWrite, .signupError (strLit "Email already registered. Please log in."))
  else
    if (getUserByEmail dbWrite email).isSome then
      (dbWrite, .signupError (strLit "Email already exists."))
    else
      ({ dbWrite with
          users := dbWrite.users ++ [newUser dbWrite salt name email password]
          nextUserId := dbWrite.nextUserId + 1 },
       .redirectLogin)

/-- Login handler, POST branch (main.py:131–143). -/
def login (db : DB) (email password : Str) : DB × HResp :=
  match getUserByEmail db email with
  | some user =>
    if check_password_hash user.password password then
      (db, .redirectDashboard user.id)
    else (db, .renderLogin)
  | none => (db, .renderLogin)

/-- Dashboard handler (main.py:146–150).  `remote` is the job list the
remote API would return; a `KeyError` escaping the fetcher is an
unhandled server failure. -/
def dashboard (db : DB) (id : Nat) (remote : List Job) : DB × HResp :=
  match getUser db id with
  | none => (db, .notFound)
  | some user =>
    match (fetch_remotive_jobs user.role remote).2 with
    | none => (db, .serverError)
    | some jobs => (db, .renderDashboard id jobs)

/-- Profile view handler (main.py:153–156). -/
def profile (db : DB) (id : Nat) : DB × HResp :=
  match getUser db id with
  | none => (db, .notFound)
  | some _ => (db, .renderProfile id)

/-- The submitted form and files of a profile-edit POST.  `form.get`
fields are optional; the three bracketed fields arrive as lists via
`getlist`; `photo`/`resume` hold the uploaded file's filename when a
file part is present (possibly with an empty filename). -/
structure EditForm where
  name : Option Str
  role : Option Str
  address : Option Str
  linkedin : Option Str
  about : Option Str
  titles : List Str
  companies : List Str
  descs : List Str
  photo : Option Str
  resume : Option Str
deriving Repr, DecidableEq

/-- Model of werkzeug's `secure_filename`: keep only ASCII
alphanumerics, dots, underscores and dashes. -/
def secure_filename (s : Str) : Str :=
  s.filter (fun c => c.isAlphanum || c = '.' || c = '_' || c = '-')

/-- Profile-edit handler, GET branch (main.py:159–161, 189). -/
def editprofile_get (db : DB) (id : Nat) : DB × HResp :=
  match getUser db id with
  | none => (db, .notFound)
  | some _ => (db, .renderEditProfile id)

/-- Lines 164–172 of the POST branch: overwrite the five scalar profile
fields and the three delimiter-joined work-experience fields. -/
def updateFields (user : User) (f : EditForm) : User :=
  { user with
    name := f.name
    role := f.role
    address := f.address
    linkdin := f.linkedin
    about := f.about
    title := some (pyJoinDelim f.titles)
    company := some (pyJoinDelim f.companies)
    desc := some (pyJoinDelim f.descs) }

/-- Lines 174–178 of the POST branch: `if photo and photo.filename`,
save under the uploads directory and update the stored image path. -/
def updatePhoto (user : User) (photo : Option Str) : User :=
  match photo with
  | some fn =>
    if fn.isEmpty then user
    else
      { user with
        image := strLit "static/uploads/profile_pics/" ++ secure_filename fn }
  | none => user

/-- Lines 180–184 of the POST branch: same for the resume file. -/
def updateResume (user : User) (resume : Option Str) : User :=
  match resume with
  | some fn =>
    if fn.isEmpty then user
    else
      { user with
        resume := some (strLit "static/uploads/resume/" ++
          secure_filename fn) }
  | none => user

/-- Profile-edit handler, POST branch (main.py:159–187). -/
def editprofile_post (db : DB) (id : Nat) (f : EditForm) : DB × HResp :=
  match getUser db id with
  | none => (db, .notFound)
  | some user =>
    (setUser db id (updateResume (updatePhoto (updateFields user f) f.photo)
        f.resume),
     .redirectProfile id)

/-- Apply handler `auto_apply` (main.py:192–207).  The three query
parameters (`request.args.get`) may each be absent. -/
def auto_apply (db : DB) (id : Nat) (qTitle qCompany qJob : Option Str) :
    DB × HResp :=
  match getUser db id with
  | none => (db, .notFound)
  | some user =>
    let application : Application :=
      { id := db.nextAppId
        job_title := qTitle
        company := qCompany
        job_url := qJob
        user_id := user.id }
    let user' : User := { user with apply := user.apply + 1 }
    ({ setUser db id user' with
        apps := db.apps ++ [application]
        nextAppId := db.nextAppId + 1 },
     .redirectApplications id)

/-- Funnel computation of the applications view (main.py:215–220):
`int(x * 100 / applied)` with `applied = max(user.apply, 1)`; on these
non-negative counters the truncated division is integer floor division. -/
def mkFunnel (applyCount shortlistCount interviewCount : Nat) : Funnel :=
  let applied := max applyCount 1
  { applied := 100
    shortlisted := shortlistCount * 100 / applied
    interview := interviewCount * 100 / applied }

/-- Applications view handler (main.py:210–227). -/
def applications (db : DB) (id : Nat) : DB × HResp :=
  match getUser db id with
  | none => (db, .notFound)
  | some user =>
    let apps := db.apps.filter (fun a => a.user_id == id)
    (db,
     .renderApplications id apps
       (mkFunnel user.apply user.shortlist user.interview))

/-- Number of `Application` rows of a given user
(`Application.query.filter_by(user_id=id)`). -/
def appCount (db : DB) (id : Nat) : Nat :=
  (db.apps.filter (fun a => a.user_id == id)).length

/-- Iterate the apply action over a list of query-parameter triples. -/
def applyMany (db : DB) (id : Nat)
    (ps : List (Option Str × Option Str × Option Str)) : DB :=
  ps.foldl (fun d p => (auto_apply d id p.1 p.2.1 p.2.2).1) db

/-- The matching predicate as the specification words it: the title
contains, as a case-insensitive substring, at least one
whitespace-delimited token of the role string.  Stated from the spec, to
be compared with the filter `fetch_remotive_jobs` actually runs. -/
def specTitleMatches (role : Str) (title : Str) : Bool :=
  (pySplitWs role).any (fun tok => strContains (pyLower tok) (pyLower title))

/-! ## Concrete sample data, used by the closed witness theorems -/

/-- An empty store. -/
def db0 : DB := { users := [], apps := [], nextUserId := 1, nextAppId := 1 }

/-- A profile-edit form with nothing submitted. -/
def emptyForm : EditForm :=
  { name := none, role := none, address := none, linkedin := none
    about := none, titles := [], companies := [], descs := []
    photo := none, resume := none }

/-- A sample user: role `"Python Developer"`, funnel counters 4/1/0/0. -/
def user1 : User :=
  { id := 1
    name := some (strLit "Ada")
    email := strLit "ada@example.com"
    password := strLit "s8$pw"
    role := some (strLit "Python Developer")
    address := none, linkdin := none, about := none
    title := none, company := none, desc := none, resume := none
    image := defaultImagePath
    apply := 4, shortlist := 1, interview := 0, reject := 0 }

/-- A store holding just `user1`. -/
def db1 : DB := { users := [user1], apps := [], nextUserId := 2, nextAppId := 1 }

/-- A profile-edit form submitting one title entry that contains the
delimiter, and no company/description entries. -/
def form8 : EditForm :=
  { emptyForm with titles := [strLit "a||b"] }

/-- A profile-edit form submitting two delimiter-free entries per group. -/
def form8b : EditForm :=
  { emptyForm with
    titles := [strLit "Dev", strLit "Lead"]
    companies := [strLit "Acme", strLit "Initech"]
    descs := [strLit "built x", strLit "led y"] }

/-- A sample remote response: three postings, all titled. -/
def jobsEx : List Job :=
  [⟨true, strLit "Senior PYTHON Engineer"⟩, ⟨true, strLit "Go Dev"⟩,
   ⟨true, strLit "Web Developer"⟩]


/-! ## Helper lemmas -/

theorem find?_append_of_none {α : Type} {p : α → Bool} {l₁ l₂ : List α}
    (h : l₁.find? p = none) : (l₁ ++ l₂).find? p = l₂.find? p := by
  rw [List.find?_append, h, Option.none_or]

theorem find?_map_update (l : List User) (id : Nat) (u u' : User)
    (h : l.find? (fun v => v.id == id) = some u) (hid : u'.id = id) :
    (l.map (fun v => if v.id == id then u' else v)).find?
      (fun v => v.id == id) = some u' := by
  induction l with
  | nil => simp at h
  | cons a t ih =>
    by_cases hpa : (a.id == id) = true
    · simp only [List.map_cons, if_pos hpa]
      exact List.find?_cons_of_pos _ (by simp [hid])
    · rw [List.find?_cons_of_neg (p := fun v : User => v.id == id) _ hpa] at h
      simp only [List.map_cons, if_neg hpa]
      rw [List.find?_cons_of_neg (p := fun v : User => v.id == id) _ hpa]
      exact ih h

theorem getUser_setUser (db : DB) (id : Nat) (u u' : User)
    (h : getUser db id = some u) (hid : u'.id = id) :
    getUser (setUser db id u') id = some u' :=
  find?_map_update db.users id u u' h hid

theorem getUser_id_eq (db : DB) (id : Nat) (u : User)
    (h : getUser db id = some u) : u.id = id := by
  have := List.find?_some h
  simpa using this

/-! ## C2: the applications-view funnel -/

/-- C2: for every user, the applications view renders the funnel with
applied fixed at 100, shortlisted = ⌊shortlist·100 / max(applied,1)⌋ and
interview = ⌊interview·100 / max(applied,1)⌋, leaving the store
untouched; in particular counters (4,1,0) give (100,25,0) and counters
(0,0,0) give (100,0,0), with no division-by-zero failure. -/
theorem applications_funnel_spec (db : DB) (id : Nat) (u : User)
    (h : getUser db id = some u) :
    applications db id =
      (db, .renderApplications id (db.apps.filter (fun a => a.user_id == id))
        { applied := 100
          shortlisted := u.shortlist * 100 / max u.apply 1
          interview := u.interview * 100 / max u.apply 1 }) ∧
    mkFunnel 4 1 0 = { applied := 100, shortlisted := 25, interview := 0 } ∧
    mkFunnel 0 0 0 = { applied := 100, shortlisted := 0, interview := 0 } := by
  refine ⟨?_, by decide, by decide⟩
  simp [applications, h, mkFunnel]

theorem applications_funnel_spec_witness :
    applications db1 1 =
      (db1, .renderApplications 1 (db1.apps.filter (fun a => a.user_id == 1))
        { applied := 100
          shortlisted := user1.shortlist * 100 / max user1.apply 1
          interview := user1.interview * 100 / max user1.apply 1 }) ∧
    mkFunnel 4 1 0 = { applied := 100, shortlisted := 25, interview := 0 } ∧
    mkFunnel 0 0 0 = { applied := 100, shortlisted := 0, interview := 0 } :=
  applications_funnel_spec db1 1 user1 (by decide)

/-! ## C5: id-scoped pages on a missing user -/

/-- C5: every id-scoped handler — dashboard, profile view, profile edit
(GET and POST), apply, applications view — answers a request for an id
with no `User` row with a not-found failure and leaves the store
unchanged. -/
theorem idscoped_notfound (db : DB) (id : Nat) (remote : List Job)
    (f : EditForm) (t c j : Option Str)
    (h : getUser db id = none) :
    dashboard db id remote = (db, .notFound) ∧
    profile db id = (db, .notFound) ∧
    editprofile_get db id = (db, .notFound) ∧
    editprofile_post db id f = (db, .notFound) ∧
    auto_apply db id t c j = (db, .notFound) ∧
    applications db id = (db, .notFound) := by
  refine ⟨?_, ?_, ?_, ?_, ?_, ?_⟩ <;>
    simp [dashboard, profile, editprofile_get, editprofile_post,
      auto_apply, applications, h]

theorem idscoped_notfound_witness :
    dashboard db0 1 [] = (db0, .notFound) ∧
    profile db0 1 = (db0, .notFound) ∧
    editprofile_get db0 1 = (db0, .notFound) ∧
    editprofile_post db0 1 emptyForm = (db0, .notFound) ∧
    auto_apply db0 1 none none none = (db0, .notFound) ∧
    applications db0 1 = (db0, .notFound) :=
  idscoped_notfound db0 1 [] emptyForm none none none (by decide)

/-! ## C6: login succeeds exactly on email match plus hash verification -/

/-- C6: a login POST redirects to the dashboard of the user whose email
matched if and only if a `User` row with the submitted email exists and
its stored hash verifies against the submitted password; on any failure
(no such email, or hash mismatch) the bare login form is redisplayed —
the same response in both failure modes, with no distinguishing error
message — and the store is unchanged. -/
theorem login_spec (db : DB) (email password : Str) :
    (login db email password).1 = db ∧
    (∀ uid, (login db email password).2 = .redirectDashboard uid ↔
      ∃ u, getUserByEmail db email = some u ∧
        check_password_hash u.password password = true ∧ uid = u.id) ∧
    ((∀ u, getUserByEmail db email = some u →
        check_password_hash u.password password = false) →
      (login db email password).2 = .renderLogin) := by
  cases hu : getUserByEmail db email with
  | none => simp [login, hu]
  | some u =>
    cases hc : check_password_hash u.password password with
    | false => simp [login, hu, hc]
    | true =>
      refine ⟨by simp [login, hu, hc], fun uid => ?_, fun hall => ?_⟩
      · constructor
        · intro hr
          refine ⟨u, rfl, hc, ?_⟩
          simpa [login, hu, hc, eq_comm] using hr
        · rintro ⟨v, hv, hcv, rfl⟩
          obtain rfl : u = v := Option.some_inj.mp hv
          simp [login, hu, hc]
      · exact absurd (hall u rfl) (by simp [hc])

theorem login_spec_witness :
    (login db1 user1.email user1.password).1 = db1 ∧
    (∀ uid, (login db1 user1.email user1.password).2 =
        .redirectDashboard uid ↔
      ∃ u, getUserByEmail db1 user1.email = some u ∧
        check_password_hash u.password user1.password = true ∧ uid = u.id) ∧
    ((∀ u, getUserByEmail db1 user1.email = some u →
        check_password_hash u.password user1.password = false) →
      (login db1 user1.email user1.password).2 = .renderLogin) :=
  login_spec db1 user1.email user1.password

/-! ## C3: the apply action -/

theorem auto_apply_step (db : DB) (id : Nat) (u : User) (t c j : Option Str)
    (h : getUser db id = some u) :
    auto_apply db id t c j =
      ({ users := db.users.map (fun v =>
            if v.id == id then { u with apply := u.apply + 1 } else v)
         apps := db.apps ++ [⟨db.nextAppId, t, c, j, u.id⟩]
         nextUserId := db.nextUserId
         nextAppId := db.nextAppId + 1 },
       .redirectApplications id) := by
  simp [auto_apply, h, setUser]

theorem getUser_auto_apply (db : DB) (id : Nat) (u : User) (t c j : Option Str)
    (h : getUser db id = some u) :
    getUser (auto_apply db id t c j).1 id =
      some { u with apply := u.apply + 1 } := by
  rw [auto_apply_step db id u t c j h]
  simp only [getUser]
  exact find?_map_update db.users id u _ h (getUser_id_eq db id u h)

theorem appCount_auto_apply (db : DB) (id : Nat) (u : User)
    (t c j : Option Str) (h : getUser db id = some u) :
    appCount (auto_apply db id t c j).1 id = appCount db id + 1 := by
  rw [auto_apply_step db id u t c j h]
  simp [appCount, List.filter_append, getUser_id_eq db id u h]

theorem applyMany_count (id : Nat)
    (ps : List (Option Str × Option Str × Option Str)) :
    ∀ (db : DB) (u : User), getUser db id = some u →
      appCount (applyMany db id ps) id = appCount db id + ps.length ∧
      ∃ u', getUser (applyMany db id ps) id = some u' ∧
        u'.apply = u.apply + ps.length := by
  induction ps with
  | nil =>
    intro db u h
    exact ⟨by simp [applyMany], u, by simpa [applyMany] using h, by simp⟩
  | cons p ps ih =>
    intro db u h
    have hstep := getUser_auto_apply db id u p.1 p.2.1 p.2.2 h
    have hcount := appCount_auto_apply db id u p.1 p.2.1 p.2.2 h
    have hMany : applyMany db id (p :: ps) =
        applyMany (auto_apply db id p.1 p.2.1 p.2.2).1 id ps := by
      simp [applyMany]
    obtain ⟨hc, u', hu', ha⟩ := ih (auto_apply db id p.1 p.2.1 p.2.2).1 _ hstep
    refine ⟨?_, u', ?_, ?_⟩
    · rw [hMany, hc, hcount]; simp only [List.length_cons]; omega
    · rw [hMany]; exact hu'
    · rw [ha]
      show u.apply + 1 + ps.length = u.apply + (ps.length + 1)
      omega

/-- C3: for an existing user, each invocation of the apply action
appends exactly one `Application` row holding the caller-supplied
title/company/url verbatim and referencing the user, and increments the
user's applied counter by one, both in the same committed store; hence
iterating it over N parameter triples raises both the user's
`Application` row count and the applied counter by exactly N. -/
theorem auto_apply_spec (db : DB) (id : Nat) (u : User) (t c j : Option Str)
    (ps : List (Option Str × Option Str × Option Str))
    (h : getUser db id = some u) :
    (auto_apply db id t c j).1.apps =
      db.apps ++ [⟨db.nextAppId, t, c, j, u.id⟩] ∧
    (auto_apply db id t c j).2 = .redirectApplications id ∧
    appCount (auto_apply db id t c j).1 id = appCount db id + 1 ∧
    getUser (auto_apply db id t c j).1 id =
      some { u with apply := u.apply + 1 } ∧
    appCount (applyMany db id ps) id = appCount db id + ps.length ∧
    ∃ u', getUser (applyMany db id ps) id = some u' ∧
      u'.apply = u.apply + ps.length := by
  obtain ⟨hc, hex⟩ := applyMany_count id ps db u h
  exact ⟨by rw [auto_apply_step db id u t c j h],
    by rw [auto_apply_step db id u t c j h],
    appCount_auto_apply db id u t c j h,
    getUser_auto_apply db id u t c j h, hc, hex⟩

theorem auto_apply_spec_witness :
    (auto_apply db1 1 (some (strLit "T")) none none).1.apps =
      db1.apps ++ [⟨db1.nextAppId, some (strLit "T"), none, none, user1.id⟩] ∧
    (auto_apply db1 1 (some (strLit "T")) none none).2 =
      .redirectApplications 1 ∧
    appCount (auto_apply db1 1 (some (strLit "T")) none none).1 1 =
      appCount db1 1 + 1 ∧
    getUser (auto_apply db1 1 (some (strLit "T")) none none).1 1 =
      some { user1 with apply := user1.apply + 1 } ∧
    appCount (applyMany db1 1 [(none, none, none), (none, none, none)]) 1 =
      appCount db1 1 + 2 ∧
    ∃ u', getUser (applyMany db1 1 [(none, none, none), (none, none, none)]) 1 =
        some u' ∧ u'.apply = user1.apply + 2 :=
  auto_apply_spec db1 1 user1 (some (strLit "T")) none none
    [(none, none, none), (none, none, none)] (by decide)

/-! ## C9: the profile-edit frame -/

theorem updatePhoto_frame (u : User) (p : Option Str) :
    (updatePhoto u p).id = u.id ∧ (updatePhoto u p).email = u.email ∧
    (updatePhoto u p).password = u.password ∧
    (updatePhoto u p).apply = u.apply ∧
    (updatePhoto u p).shortlist = u.shortlist ∧
    (updatePhoto u p).interview = u.interview ∧
    (updatePhoto u p).reject = u.reject ∧
    (updatePhoto u p).title = u.title ∧
    (updatePhoto u p).company = u.company ∧
    (updatePhoto u p).desc = u.desc := by
  cases p with
  | none => simp [updatePhoto]
  | some fn => by_cases he : fn.isEmpty <;> simp [updatePhoto, he]

theorem updateResume_frame (u : User) (p : Option Str) :
    (updateResume u p).id = u.id ∧ (updateResume u p).email = u.email ∧
    (updateResume u p).password = u.password ∧
    (updateResume u p).apply = u.apply ∧
    (updateResume u p).shortlist = u.shortlist ∧
    (updateResume u p).interview = u.interview ∧
    (updateResume u p).reject = u.reject ∧
    (updateResume u p).title = u.title ∧
    (updateResume u p).company = u.company ∧
    (updateResume u p).desc = u.desc := by
  cases p with
  | none => simp [updateResume]
  | some fn => by_cases he : fn.isEmpty <;> simp [updateResume, he]

theorem editprofile_post_eq (db : DB) (id : Nat) (f : EditForm) (u : User)
    (h : getUser db id = some u) :
    ∃ u', editprofile_post db id f = (setUser db id u', .redirectProfile id) ∧
      u'.id = u.id ∧ u'.email = u.email ∧ u'.password = u.password ∧
      u'.apply = u.apply ∧ u'.shortlist = u.shortlist ∧
      u'.interview = u.interview ∧ u'.reject = u.reject ∧
      u'.title = some (pyJoinDelim f.titles) ∧
      u'.company = some (pyJoinDelim f.companies) ∧
      u'.desc = some (pyJoinDelim f.descs) := by
  refine ⟨updateResume (updatePhoto (updateFields u f) f.photo) f.resume,
    by simp [editprofile_post, h], ?_⟩
  obtain ⟨r1, r2, r3, r4, r5, r6, r7, r8, r9, r10⟩ :=
    updateResume_frame (updatePhoto (updateFields u f) f.photo) f.resume
  obtain ⟨p1, p2, p3, p4, p5, p6, p7, p8, p9, p10⟩ :=
    updatePhoto_frame (updateFields u f) f.photo
  exact ⟨r1.trans (p1.trans (by simp [updateFields])),
    r2.trans (p2.trans (by simp [updateFields])),
    r3.trans (p3.trans (by simp [updateFields])),
    r4.trans (p4.trans (by simp [updateFields])),
    r5.trans (p5.trans (by simp [updateFields])),
    r6.trans (p6.trans (by simp [updateFields])),
    r7.trans (p7.trans (by simp [updateFields])),
    r8.trans (p8.trans (by simp [updateFields])),
    r9.trans (p9.trans (by simp [updateFields])),
    r10.trans (p10.trans (by simp [updateFields]))⟩

/-- C9: a profile-edit POST on an existing user never touches the user's
id, email, stored password hash, or any of the four funnel counters, and
leaves the `applications` table exactly as it was. -/
theorem editprofile_frame (db : DB) (id : Nat) (f : EditForm) (u : User)
    (h : getUser db id = some u) :
    (editprofile_post db id f).1.apps = db.apps ∧
    ∃ u', getUser (editprofile_post db id f).1 id = some u' ∧
      u'.id = u.id ∧ u'.email = u.email ∧ u'.password = u.password ∧
      u'.apply = u.apply ∧ u'.shortlist = u.shortlist ∧
      u'.interview = u.interview ∧ u'.reject = u.reject := by
  obtain ⟨u', heq, hid, hemail, hpw, hap, hsh, hin, hrj, -, -, -⟩ :=
    editprofile_post_eq db id f u h
  refine ⟨by rw [heq]; simp [setUser], u', ?_, hid, hemail, hpw, hap,
    hsh, hin, hrj⟩
  rw [heq]
  exact getUser_setUser db id u u' h (hid.trans (getUser_id_eq db id u h))

theorem editprofile_frame_witness :
    (editprofile_post db1 1 form8b).1.apps = db1.apps ∧
    ∃ u', getUser (editprofile_post db1 1 form8b).1 1 = some u' ∧
      u'.id = user1.id ∧ u'.email = user1.email ∧
      u'.password = user1.password ∧
      u'.apply = user1.apply ∧ u'.shortlist = user1.shortlist ∧
      u'.interview = user1.interview ∧ u'.reject = user1.reject :=
  editprofile_frame db1 1 form8b user1 (by decide)

/-! ## C4: duplicate-email signups are rejected -/

/-- C4: a signup whose email is already present — whether the pre-check
SELECT sees it (`dbRead`) or the unique-constraint violation fires at
commit time (`dbWrite`) — returns a user-visible duplicate-email error
page and leaves the store exactly as it was at write time: no `User` row
is created, and on the constraint-violation path the pending insert is
rolled back. -/
theorem signup_duplicate_rejected (db1 db2 : DB)
    (salt name email password : Str)
    (h : (getUserByEmail db1 email).isSome ∨
      (getUserByEmail db2 email).isSome) :
    (signup db1 db2 salt name email password).1 = db2 ∧
    ∃ msg, (signup db1 db2 salt name email password).2 = .signupError msg ∧
      (msg = strLit "Email already registered. Please log in." ∨
        msg = strLit "Email already exists.") := by
  by_cases h1 : (getUserByEmail db1 email).isSome
  · exact ⟨by simp [signup, h1], _, by simp [signup, h1], Or.inl rfl⟩
  · have h2 : (getUserByEmail db2 email).isSome := h.resolve_left h1
    exact ⟨by simp [signup, h1, h2], _, by simp [signup, h1, h2],
      Or.inr rfl⟩

theorem signup_duplicate_rejected_witness :
    (signup db1 db1 (strLit "s9") (strLit "Eve") user1.email
        (strLit "pw2")).1 = db1 ∧
    ∃ msg, (signup db1 db1 (strLit "s9") (strLit "Eve") user1.email
        (strLit "pw2")).2 = .signupError msg ∧
      (msg = strLit "Email already registered. Please log in." ∨
        msg = strLit "Email already exists.") :=
  signup_duplicate_rejected db1 db1 (strLit "s9") (strLit "Eve")
    user1.email (strLit "pw2") (Or.inl (by decide))

/-! ## C7: passwords are stored hashed, and the hash verifies at login -/

theorem length_generate_password_hash (salt pw : Str) :
    (generate_password_hash salt pw).length = salt.length + pw.length + 1 := by
  simp [generate_password_hash]
  omega

theorem generate_password_hash_ne (salt pw : Str) :
    generate_password_hash salt pw ≠ pw := by
  intro heq
  have := congrArg List.length heq
  rw [length_generate_password_hash] at this
  omega

theorem check_generate_password_hash (salt pw : Str) :
    check_password_hash (generate_password_hash salt pw) pw = true := by
  rw [check_password_hash, List.any_eq_true]
  refine ⟨salt.length, List.mem_range.mpr ?_, ?_⟩
  · rw [length_generate_password_hash]; omega
  · rw [generate_password_hash, List.drop_left]
    exact beq_self_eq_true _

/-- C7: a successful signup stores, as the user's password, the salted
one-way hash of the submitted plaintext — never the plaintext itself —
and a subsequent login with that email and password finds the row and
verifies the stored hash, redirecting to the user's dashboard. -/
theorem signup_password_hashed (db1 db2 : DB)
    (salt name email password : Str)
    (h1 : getUserByEmail db1 email = none)
    (h2 : getUserByEmail db2 email = none) :
    ∃ db' u, signup db1 db2 salt name email password =
        (db', .redirectLogin) ∧
      getUserByEmail db' email = some u ∧
      u.password = generate_password_hash salt password ∧
      u.password ≠ password ∧
      check_password_hash u.password password = true ∧
      login db' email password = (db', .redirectDashboard u.id) := by
  have h2list : db2.users.find? (fun u => u.email == email) = none := h2
  have hfind : getUserByEmail
      { db2 with
        users := db2.users ++ [newUser db2 salt name email password]
        nextUserId := db2.nextUserId + 1 } email =
      some (newUser db2 salt name email password) := by
    show (db2.users ++ [newUser db2 salt name email password]).find?
        (fun u => u.email == email) =
      some (newUser db2 salt name email password)
    rw [find?_append_of_none h2list]
    exact List.find?_cons_of_pos _ (by simp [newUser])
  refine ⟨{ db2 with
      users := db2.users ++ [newUser db2 salt name email password]
      nextUserId := db2.nextUserId + 1 },
    newUser db2 salt name email password,
    by simp [signup, h1, h2], hfind, rfl,
    generate_password_hash_ne salt password,
    check_generate_password_hash salt password, ?_⟩
  simp only [login, hfind]
  have hchk : check_password_hash
      (newUser db2 salt name email password).password password = true :=
    check_generate_password_hash salt password
  simp [hchk]

theorem signup_password_hashed_witness :
    ∃ db' u, signup db0 db0 (strLit "s8") (strLit "Ada")
        (strLit "ada@example.com") (strLit "pw") = (db', .redirectLogin) ∧
      getUserByEmail db' (strLit "ada@example.com") = some u ∧
      u.password = generate_password_hash (strLit "s8") (strLit "pw") ∧
      u.password ≠ strLit "pw" ∧
      check_password_hash u.password (strLit "pw") = true ∧
      login db' (strLit "ada@example.com") (strLit "pw") =
        (db', .redirectDashboard u.id) :=
  signup_password_hashed db0 db0 (strLit "s8") (strLit "Ada")
    (strLit "ada@example.com") (strLit "pw") (by decide) (by decide)

/-! ## C1 and C10: the listing fetcher -/

theorem pyToLower_space (c : Char) :
    isPySpace (pyToLower c) = isPySpace c := by
  rw [pyToLower]
  by_cases h : 65 ≤ c.toNat ∧ c.toNat ≤ 90
  · rw [if_pos h]
    have hv : (c.toNat + 32).isValidChar := Or.inl (by omega)
    have ht : (Char.ofNat (c.toNat + 32)).toNat = c.toNat + 32 := by
      rw [Char.ofNat, dif_pos hv]
      rfl
    have h1 : isPySpace (Char.ofNat (c.toNat + 32)) = false := by
      simp only [isPySpace, decide_eq_false_iff_not]
      rw [ht]
      omega
    have h2 : isPySpace c = false := by
      simp only [isPySpace, decide_eq_false_iff_not]
      omega
    rw [h1, h2]
  · rw [if_neg h]

theorem splitWsAll_ne_nil (s : Str) : splitWsAll s ≠ [] := by
  induction s with
  | nil => simp [splitWsAll]
  | cons c cs ih =>
    rw [splitWsAll]
    by_cases h : isPySpace c = true
    · simp [h]
    · simp only [if_neg h]
      cases hs : splitWsAll cs with
      | nil => simp
      | cons w ws => simp

theorem splitWsAll_pyLower (s : Str) :
    splitWsAll (pyLower s) = (splitWsAll s).map pyLower := by
  induction s with
  | nil => simp [pyLower, splitWsAll]
  | cons c cs ih =>
    have hcons : pyLower (c :: cs) = pyToLower c :: pyLower cs := by
      simp [pyLower]
    rw [hcons, splitWsAll, splitWsAll, pyToLower_space]
    by_cases h : isPySpace c = true
    · simp only [if_pos h, ih, List.map_cons]
      rfl
    · simp only [if_neg h]
      cases hs : splitWsAll cs with
      | nil => exact absurd hs (splitWsAll_ne_nil cs)
      | cons w ws =>
        rw [hs] at ih
        rw [ih]
        simp [pyLower]

theorem pySplitWs_pyLower (s : Str) :
    pySplitWs (pyLower s) = (pySplitWs s).map pyLower := by
  rw [pySplitWs, pySplitWs, splitWsAll_pyLower, List.filter_map]
  have hcomp : ((fun w : Str => !w.isEmpty) ∘ pyLower) =
      (fun w : Str => !w.isEmpty) := by
    funext w
    cases w <;> simp [pyLower]
  rw [hcomp]

theorem jobMatches_of_hasTitle (keywords : List Str) (j : Job)
    (h : j.hasTitle = true) :
    jobMatches keywords j =
      some (keywords.any (fun k => strContains k (pyLower j.title))) := by
  by_cases hk : keywords.isEmpty = true
  · have : keywords = [] := List.isEmpty_iff.mp hk
    subst this
    simp [jobMatches]
  · simp [jobMatches, hk, Job.titleGet, h]

theorem filterJobs_eq_filter (keywords : List Str) (data : List Job)
    (h : ∀ j ∈ data, j.hasTitle = true) :
    filterJobs keywords data =
      some (data.filter (fun j =>
        keywords.any (fun k => strContains k (pyLower j.title)))) := by
  induction data with
  | nil => rfl
  | cons j rest ih =>
    rw [filterJobs, jobMatches_of_hasTitle keywords j (h j (by simp)),
      ih (fun x hx => h x (by simp [hx])), List.filter_cons]

theorem codeMatch_eq_specMatch (role title : Str) :
    (pySplitWs (pyLower role)).any (fun k => strContains k (pyLower title)) =
      specTitleMatches role title := by
  rw [specTitleMatches, pySplitWs_pyLower, List.any_map]
  rfl

/-- C1: for every role and remote job list (each posting carrying a
title, as the remote API contract guarantees), a truthy role makes the
fetcher issue the outbound call and return exactly the postings whose
title contains, case-insensitively, at least one whitespace token of the
role — in remote order, truncated to the first 30 — while an empty or
unset role returns the empty list without contacting the remote source. -/
theorem fetch_listings_spec (role : Str) (data : List Job)
    (htitles : ∀ j ∈ data, j.hasTitle = true) :
    (role ≠ [] →
      fetch_remotive_jobs (some role) data =
        (true, some ((data.filter
          (fun j => specTitleMatches role j.title)).take 30))) ∧
    fetch_remotive_jobs (some []) data = (false, some []) ∧
    fetch_remotive_jobs none data = (false, some []) := by
  refine ⟨fun hne => ?_, rfl, rfl⟩
  have hr : role.isEmpty = false := List.isEmpty_eq_false.mpr hne
  have hpred : (fun j : Job => (pySplitWs (pyLower role)).any
      (fun k => strContains k (pyLower j.title))) =
      (fun j : Job => specTitleMatches role j.title) := by
    funext j
    exact codeMatch_eq_specMatch role j.title
  simp only [fetch_remotive_jobs, hr]
  rw [if_neg (by simp [hr]), filterJobs_eq_filter _ _ htitles]
  rw [hpred]
  rfl

theorem fetch_listings_spec_witness :
    ((strLit "Python Developer") ≠ [] →
      fetch_remotive_jobs (some (strLit "Python Developer")) jobsEx =
        (true, some ((jobsEx.filter (fun j =>
          specTitleMatches (strLit "Python Developer") j.title)).take 30))) ∧
    fetch_remotive_jobs (some []) jobsEx = (false, some []) ∧
    fetch_remotive_jobs none jobsEx = (false, some []) :=
  fetch_listings_spec (strLit "Python Developer") jobsEx (by decide)

/-- C10: the comprehension reads `job["title"]` without a guard; when
every job object carries a `"title"` key the fetch always produces a
result (the missing-key branch is unreachable), and on a response
holding a titleless job with a truthy role it raises before producing
any result. -/
theorem fetch_title_guard (role : Option Str) (data : List Job)
    (h : ∀ j ∈ data, j.hasTitle = true) :
    (fetch_remotive_jobs role data).2.isSome = true ∧
    fetch_remotive_jobs (some (strLit "python"))
      [{ hasTitle := false, title := [] }] = (true, none) := by
  refine ⟨?_, by decide⟩
  match role with
  | none => rfl
  | some r =>
    by_cases hr : r.isEmpty = true
    · simp [fetch_remotive_jobs, hr]
    · simp only [fetch_remotive_jobs, hr]
      rw [if_neg (by simp [hr]), filterJobs_eq_filter _ _ h]
      simp

theorem fetch_title_guard_witness :
    (fetch_remotive_jobs (some (strLit "python")) jobsEx).2.isSome = true ∧
    fetch_remotive_jobs (some (strLit "python"))
      [{ hasTitle := false, title := [] }] = (true, none) :=
  fetch_title_guard (some (strLit "python")) jobsEx (by decide)

/-! ## C8: the delimiter-joined work-experience fields -/

theorem pySplitDelim_no_bar (w : Str) :
    '|' ∉ w → pySplitDelim w = [w] := by
  induction w with
  | nil => intro _; rfl
  | cons c cs ih =>
    intro h
    have hc : c ≠ '|' := fun he => h (he ▸ List.mem_cons_self c cs)
    have hcs : '|' ∉ cs := fun hm => h (List.mem_cons_of_mem c hm)
    cases cs with
    | nil => rfl
    | cons c2 rest =>
      rw [pySplitDelim, if_neg (fun hand => hc hand.1), ih hcs]

theorem pySplitDelim_append (x t : Str) :
    '|' ∉ x → pySplitDelim (x ++ '|' :: '|' :: t) = x :: pySplitDelim t := by
  induction x with
  | nil =>
    intro _
    show pySplitDelim ('|' :: '|' :: t) = [] :: pySplitDelim t
    rw [pySplitDelim, if_pos ⟨rfl, rfl⟩]
  | cons c x' ih =>
    intro h
    have hc : c ≠ '|' := fun he => h (he ▸ List.mem_cons_self c x')
    have hx' : '|' ∉ x' := fun hm => h (List.mem_cons_of_mem c hm)
    cases x' with
    | nil =>
      show pySplitDelim (c :: '|' :: '|' :: t) = [c] :: pySplitDelim t
      have hin : pySplitDelim ('|' :: '|' :: t) = [] :: pySplitDelim t := by
        rw [pySplitDelim, if_pos ⟨rfl, rfl⟩]
      rw [pySplitDelim, if_neg (fun hand => hc hand.1), hin]
    | cons c2 rest =>
      show pySplitDelim (c :: c2 :: (rest ++ '|' :: '|' :: t)) =
        (c :: c2 :: rest) :: pySplitDelim t
      rw [pySplitDelim, if_neg (fun hand => hc hand.1)]
      have := ih hx'
      rw [List.cons_append] at this
      rw [this]

theorem pySplitDelim_pyJoinDelim (xs : List Str) :
    xs ≠ [] → (∀ x ∈ xs, '|' ∉ x) →
    pySplitDelim (pyJoinDelim xs) = xs := by
  induction xs with
  | nil => intro hne _; exact absurd rfl hne
  | cons x ys ih =>
    intro _ h
    cases ys with
    | nil =>
      show pySplitDelim x = [x]
      exact pySplitDelim_no_bar x (h x (by simp))
    | cons y zs =>
      have hj : pyJoinDelim (x :: y :: zs) =
          x ++ '|' :: '|' :: pyJoinDelim (y :: zs) := by
        rw [pyJoinDelim]
      rw [hj, pySplitDelim_append x _ (h x (by simp)),
        ih (by simp) (fun z hz => h z (by simp [hz]))]

/-- C8 counterexample: submitting the single title entry `"a||b"` (one
entry, `k = 1`) stores `"a||b"`, and splitting that stored field on the
`"||"` delimiter yields 2 segments, not `k = 1` — the claim's split-back
clause fails when an entry contains the delimiter. -/
theorem editprofile_join_counterexample :
    form8.titles.length = 1 ∧
    (getUser (editprofile_post db1 1 form8).1 1).map User.title =
      some (some (strLit "a||b")) ∧
    pyJoinDelim form8.titles = strLit "a||b" ∧
    pySplitDelim (strLit "a||b") = [strLit "a", strLit "b"] ∧
    (pySplitDelim (strLit "a||b")).length ≠ 1 := by decide

/-- C8 (amended): a profile-edit POST stores, in each of the three
work-experience fields, the submitted entries of that group joined with
the `"||"` delimiter; provided at least one entry is submitted per group
and no entry contains the delimiter character `'|'`, splitting each
stored field back on the delimiter yields exactly the submitted entries,
positionally aligned. -/
theorem editprofile_join_amended (db : DB) (id : Nat) (f : EditForm)
    (u : User) (h : getUser db id = some u)
    (ht : f.titles ≠ []) (hc : f.companies ≠ []) (hd : f.descs ≠ [])
    (hbt : ∀ x ∈ f.titles, '|' ∉ x) (hbc : ∀ x ∈ f.companies, '|' ∉ x)
    (hbd : ∀ x ∈ f.descs, '|' ∉ x) :
    ∃ u', getUser (editprofile_post db id f).1 id = some u' ∧
      u'.title = some (pyJoinDelim f.titles) ∧
      u'.company = some (pyJoinDelim f.companies) ∧
      u'.desc = some (pyJoinDelim f.descs) ∧
      pySplitDelim (pyJoinDelim f.titles) = f.titles ∧
      pySplitDelim (pyJoinDelim f.companies) = f.companies ∧
      pySplitDelim (pyJoinDelim f.descs) = f.descs := by
  obtain ⟨u', heq, hid, _, _, _, _, _, _, htl, hcm, hds⟩ :=
    editprofile_post_eq db id f u h
  refine ⟨u', ?_, htl, hcm, hds,
    pySplitDelim_pyJoinDelim f.titles ht hbt,
    pySplitDelim_pyJoinDelim f.companies hc hbc,
    pySplitDelim_pyJoinDelim f.descs hd hbd⟩
  rw [heq]
  exact getUser_setUser db id u u' h (hid.trans (getUser_id_eq db id u h))

theorem editprofile_join_amended_witness :
    ∃ u', getUser (editprofile_post db1 1 form8b).1 1 = some u' ∧
      u'.title = some (pyJoinDelim form8b.titles) ∧
      u'.company = some (pyJoinDelim form8b.companies) ∧
      u'.desc = some (pyJoinDelim form8b.descs) ∧
      pySplitDelim (pyJoinDelim form8b.titles) = form8b.titles ∧
      pySplitDelim (pyJoinDelim form8b.companies) = form8b.companies ∧
      pySplitDelim (pyJoinDelim form8b.descs) = form8b.descs :=
  editprofile_join_amended db1 1 form8b user1 (by decide) (by decide)
    (by decide) (by decide) (by decide) (by decide) (by decide)

/-! ## Concrete evaluations of the embedded definitions -/

example : pySplitWs (strLit "  Python  Developer ") =
    [strLit "Python", strLit "Developer"] := by decide

example : pyLower (strLit "PyThOn3") = strLit "python3" := by decide

example :
    fetch_remotive_jobs (some (strLit "Python Developer")) jobsEx =
    (true, some [⟨true, strLit "Senior PYTHON Engineer"⟩,
                 ⟨true, strLit "Web Developer"⟩]) := by decide

example : fetch_remotive_jobs (some []) [⟨false, []⟩] = (false, some []) := rfl

example : pyJoinDelim [strLit "a", strLit "b"] = strLit "a||b" := by decide

example : pySplitDelim (strLit "a||||b") = [strLit "a", [], strLit "b"] := by
  decide

example : pySplitDelim (strLit "a|||b") = [strLit "a", strLit "|b"] := by
  decide

example :
    check_password_hash (generate_password_hash (strLit "s8") (strLit "pw"))
      (strLit "pw") = true := by decide
